import Mathlib

/-!
Shallow embedding of the GCSE grade-predictor service (`app.py`).

Numbers that are Python floats in the source are modelled as rationals `ℚ`;
`round(x, 2)` is modelled by `round2` below.  Python dicts are modelled as
insertion-ordered association lists (the grade-boundary table maps an integer
grade to a rational threshold; the student store maps a natural id to a
record).  Fallible code (a `ZeroDivisionError`) is modelled with `Option`.
-/

namespace GCSE

/-- A grade-boundary table: Python dict from integer grade to threshold,
kept as an insertion-ordered association list. -/
abbrev Boundaries := List (ℤ × ℚ)

/-- Source: `DEFAULT_GRADE_BOUNDARIES = {9: 90, 8: 80, 7: 70, 6: 60, 5: 50,
4: 40, 3: 30, 2: 20, 1: 10}`. -/
def DEFAULT_GRADE_BOUNDARIES : Boundaries :=
  [(9, 90), (8, 80), (7, 70), (6, 60), (5, 50), (4, 40), (3, 30), (2, 20), (1, 10)]

/-- Python's `d.get(k)` / `d.get(k, default)` on an association list with the
first-match convention (dict keys are unique, so first match is the match). -/
def dget {α β : Type} [DecidableEq α] (l : List (α × β)) (k : α) : Option β :=
  (l.find? (fun p => decide (p.1 = k))).map Prod.snd

/-- Comparison used by `sorted(grade_boundaries.items(), reverse=True)`:
pairs in descending key order (dict keys are distinct, so the boundary
component never decides the order). -/
def keyGE (p q : ℤ × ℚ) : Prop := q.1 ≤ p.1

instance : DecidableRel keyGE := fun p q => inferInstanceAs (Decidable (q.1 ≤ p.1))

instance : IsTotal (ℤ × ℚ) keyGE := ⟨fun p q => le_total q.1 p.1⟩

instance : IsTrans (ℤ × ℚ) keyGE := ⟨fun _ _ _ h1 h2 => le_trans h2 h1⟩

/-- Source: `sorted(grade_boundaries.items(), reverse=True)`. -/
def sortDesc (gb : Boundaries) : Boundaries := gb.insertionSort keyGE

/-- Models Python's `round(x, 2)`: round to two decimal places.  (Python
rounds ties to even; `round2` rounds ties up.  Every theorem below uses
`round2` on both the code side and the spec side, and no concrete input in
this file is a tie, so the tie-breaking convention is never exercised.) -/
def round2 (x : ℚ) : ℚ := (round (x * 100) : ℤ) / 100

/-- The predicted grade: an integer grade, or the ungraded sentinel `'U'`. -/
inductive Grade where
  | g (n : ℤ)
  | U
  deriving DecidableEq, Repr

/-- Order on predicted grades: the ungraded sentinel is below every integer
grade; integer grades are ordered as integers. -/
def Grade.le : Grade → Grade → Prop
  | .U, _ => True
  | .g _, .U => False
  | .g m, .g n => m ≤ n

instance : DecidableRel Grade.le := fun a b =>
  match a, b with
  | .U, _ => .isTrue trivial
  | .g _, .U => .isFalse id
  | .g m, .g n => inferInstanceAs (Decidable (m ≤ n))

/-- Source (`calculate_predicted_grade`, first line):
`mock_avg = sum(mock_scores) / len(mock_scores) if mock_scores else 0`. -/
def mockAverage (ms : List ℚ) : ℚ :=
  if ms.isEmpty then 0 else ms.sum / ms.length

/-- Source (`calculate_predicted_grade`): the weighted score.
With coursework: `mock_avg * 0.5 + coursework_score * 0.3 +
teacher_assessment * 0.2`; without: `mock_avg * 0.6 + teacher_assessment *
0.4`. -/
def weightedScore (ms : List ℚ) (cw : Option ℚ) (ta : ℚ) : ℚ :=
  match cw with
  | some c => mockAverage ms * 0.5 + c * 0.3 + ta * 0.2
  | none => mockAverage ms * 0.6 + ta * 0.4

/-- Source (`calculate_predicted_grade`, boundary scan):
`for grade, boundary in sorted(grade_boundaries.items(), reverse=True):
if weighted_score >= boundary: return grade` and finally `return 'U'`. -/
def gradeFromBoundaries (ws : ℚ) (gb : Boundaries) : Grade :=
  match (sortDesc gb).find? (fun p => decide (p.2 ≤ ws)) with
  | some p => Grade.g p.1
  | none => Grade.U

/-- Source: `calculate_predicted_grade(mock_scores, coursework_score,
teacher_assessment, grade_boundaries)`. -/
def calculate_predicted_grade (ms : List ℚ) (cw : Option ℚ) (ta : ℚ)
    (gb : Boundaries) : Grade :=
  gradeFromBoundaries (weightedScore ms cw ta) gb

/-- The progress report returned by `calculate_progress`. -/
structure Progress where
  gap : ℚ
  on_track : Bool
  percentage_complete : ℚ
  deriving DecidableEq, Repr

/-- Source: `calculate_progress(current_score, target_grade,
grade_boundaries)`.  `target_score = grade_boundaries.get(int(target_grade),
0)`; `gap = target_score - current_score`; returns
`{'gap': round(gap, 2), 'on_track': gap <= 0, 'percentage_complete':
min(100, round((current_score / target_score) * 100, 2)) if target_score > 0
else 0}`.  Note `on_track` uses the un-rounded `gap`. -/
def calculate_progress (current : ℚ) (target : ℤ) (gb : Boundaries) : Progress :=
  let target_score := (dget gb target).getD 0
  let gap := target_score - current
  { gap := round2 gap
    on_track := decide (gap ≤ 0)
    percentage_complete :=
      if target_score > 0 then min 100 (round2 (current / target_score * 100)) else 0 }

/-- A stored student record (`create_student` builds this dict). -/
structure Student where
  id : ℕ
  name : String
  subject : String
  target_grade : ℤ
  mock_scores : List ℚ
  coursework_score : Option ℚ
  teacher_assessment : ℚ
  grade_boundaries : Boundaries
  predicted_grade : Grade
  weighted_score : ℚ
  progress : Progress
  /-- Source value `datetime.utcnow().isoformat()`; the clock is an
  external input here. -/
  created_at : String
  deriving DecidableEq, Repr

/-- The store's state: the module-level `students` dict (insertion-ordered,
id → record) and the `student_id_counter`. -/
structure Store where
  students : List (ℕ × Student)
  counter : ℕ
  deriving DecidableEq, Repr

/-- Initial module state: `students = {}`, `student_id_counter = 1`. -/
def freshStore : Store := { students := [], counter := 1 }

/-- A decimal-digit string, most significant digit first (models the JSON
object key `str(id)` that `json.dump` produces for an integer dict key). -/
def natToDecimal (n : ℕ) : List ℕ :=
  if n = 0 then [0] else (Nat.digits 10 n).reverse

/-- Models `int(k)` applied to a decimal-digit string key. -/
def decimalToNat (ds : List ℕ) : ℕ := Nat.ofDigits 10 ds.reverse

/-- The snapshot document `save_data` writes:
`{'students': {str(id): record}, 'next_id': counter, 'last_updated': ts}`. -/
structure Snapshot where
  students : List (List ℕ × Student)
  next_id : ℕ
  last_updated : String
  deriving DecidableEq, Repr

/-- Source (`save_data`): serialize the whole store; dict keys become
decimal strings; `last_updated = datetime.utcnow().isoformat()` is an
external clock input. -/
def save_data (st : Store) (now : String) : Snapshot :=
  { students := st.students.map (fun p => (natToDecimal p.1, p.2))
    next_id := st.counter
    last_updated := now }

/-- Source (`load_data`): `students = {int(k): v for k, v in
data.get('students', {}).items()}; student_id_counter = data.get('next_id',
1)`.  `none` is the missing/unreadable-file path, which initializes
`students = {}`, counter `1`. -/
def load_data : Option Snapshot → Store
  | none => { students := [], counter := 1 }
  | some d =>
    { students := d.students.map (fun p => (decimalToNat p.1, p.2))
      counter := d.next_id }

/-- Python dict assignment `students[k] = v`: replace in place if the key is
present, else append (insertion order preserved). -/
def dictSet (l : List (ℕ × Student)) (k : ℕ) (v : Student) : List (ℕ × Student) :=
  if l.any (fun p => p.1 == k) then
    l.map (fun p => if p.1 = k then (k, v) else p)
  else l ++ [(k, v)]

/-- Request body of `POST /api/students` after the web layer's
required-field check (`name`, `subject`, `target_grade`, `mock_scores`,
`teacher_assessment` present; `coursework_score`, `grade_boundaries`
optional). -/
structure CreateRequest where
  name : String
  subject : String
  target_grade : ℤ
  mock_scores : List ℚ
  teacher_assessment : ℚ
  coursework_score : Option ℚ
  grade_boundaries : Option Boundaries
  deriving DecidableEq, Repr

/-- Source (`create_student`, inline recomputation for display):
`mock_avg = sum(mock_scores) / len(mock_scores)` — no emptiness guard, so an
empty list raises `ZeroDivisionError` (modelled as `none`); then the same
two weighting formulas as `calculate_predicted_grade`. -/
def createWeightedScore (ms : List ℚ) (cw : Option ℚ) (ta : ℚ) : Option ℚ :=
  if ms.isEmpty then none
  else some (match cw with
    | some c => (ms.sum / ms.length) * 0.5 + c * 0.3 + ta * 0.2
    | none => (ms.sum / ms.length) * 0.6 + ta * 0.4)

/-- Source (`create_student`): compute predicted grade, recompute the
weighted score inline (the possible `ZeroDivisionError` propagates as
`none`; the handler turns it into HTTP 500 and no state changes), compute
progress, build the record with `id = student_id_counter`, insert it,
increment the counter, persist the snapshot, and return the record. -/
def create_student (st : Store) (req : CreateRequest) (now : String) :
    Option (Student × Store × Snapshot) :=
  let gb := req.grade_boundaries.getD DEFAULT_GRADE_BOUNDARIES
  let predicted := calculate_predicted_grade req.mock_scores req.coursework_score
    req.teacher_assessment gb
  match createWeightedScore req.mock_scores req.coursework_score req.teacher_assessment with
  | none => none
  | some ws =>
    let s : Student :=
      { id := st.counter
        name := req.name
        subject := req.subject
        target_grade := req.target_grade
        mock_scores := req.mock_scores
        coursework_score := req.coursework_score
        teacher_assessment := req.teacher_assessment
        grade_boundaries := gb
        predicted_grade := predicted
        weighted_score := ws
        progress := calculate_progress ws req.target_grade gb
        created_at := now }
    let st' : Store := { students := dictSet st.students st.counter s
                         counter := st.counter + 1 }
    some (s, st', save_data st' now)

/-- Source (`get_student`): `students[student_id]` after a containment
check; `none` is the 404 path. -/
def get_student (st : Store) (id : ℕ) : Option Student := dget st.students id

/-- Source (`get_students`): `list(students.values())` in insertion order. -/
def get_students (st : Store) : List Student := st.students.map Prod.snd

/-- Outcome of `DELETE /api/students/<id>`. -/
inductive DeleteOutcome where
  | notFound
  | deleted (removed : Student)
  deriving DecidableEq, Repr

/-- Source (`delete_student`): 404 if the id is absent (no mutation, no
snapshot write); otherwise `students.pop(student_id)`, then `save_data()`,
returning the removed record.  The third component is the snapshot written,
`none` when no write happened. -/
def delete_student (st : Store) (id : ℕ) (now : String) :
    DeleteOutcome × Store × Option Snapshot :=
  match dget st.students id with
  | none => (.notFound, st, none)
  | some s =>
    let st' : Store := { students := st.students.eraseP (fun p => p.1 == id)
                         counter := st.counter }
    (.deleted s, st', some (save_data st' now))

/-- A mutating request against the store. -/
inductive Op where
  | create (req : CreateRequest) (now : String)
  | delete (id : ℕ) (now : String)

/-- The store after handling one request (an erroring `create` leaves the
state unchanged: the exception is raised before the insert). -/
def applyOp (st : Store) : Op → Store
  | .create req now =>
    match create_student st req now with
    | some (_, st', _) => st'
    | none => st
  | .delete id now => (delete_student st id now).2.1

/-- The store after a sequence of requests. -/
def runOps (st : Store) (ops : List Op) : Store := ops.foldl applyOp st

/-- A concrete record used to instantiate theorems about the store. -/
def sampleStudent (n : ℕ) : Student :=
  { id := n, name := "s", subject := "m", target_grade := 9,
    mock_scores := [80, 90], coursework_score := some 70,
    teacher_assessment := 85, grade_boundaries := DEFAULT_GRADE_BOUNDARIES,
    predicted_grade := Grade.g 8, weighted_score := 80.5,
    progress := { gap := 9.5, on_track := false, percentage_complete := 89.44 },
    created_at := "t" }

/-- A concrete two-record store used to instantiate theorems. -/
def sampleStore : Store :=
  { students := [(1, sampleStudent 1), (2, sampleStudent 2)], counter := 3 }

/-- A concrete create request used to instantiate theorems. -/
def sampleRequest : CreateRequest :=
  { name := "s", subject := "m", target_grade := 9, mock_scores := [80, 90],
    teacher_assessment := 85, coursework_score := some 70,
    grade_boundaries := none }

/-- The record `create_student` builds once its inline weighted score `ws`
is known (named here so proofs can speak about it). -/
def builtStudent (st : Store) (req : CreateRequest) (now : String) (ws : ℚ) : Student :=
  { id := st.counter
    name := req.name
    subject := req.subject
    target_grade := req.target_grade
    mock_scores := req.mock_scores
    coursework_score := req.coursework_score
    teacher_assessment := req.teacher_assessment
    grade_boundaries := req.grade_boundaries.getD DEFAULT_GRADE_BOUNDARIES
    predicted_grade := calculate_predicted_grade req.mock_scores
      req.coursework_score req.teacher_assessment
      (req.grade_boundaries.getD DEFAULT_GRADE_BOUNDARIES)
    weighted_score := ws
    progress := calculate_progress ws req.target_grade
      (req.grade_boundaries.getD DEFAULT_GRADE_BOUNDARIES)
    created_at := now }

/-- The id-assignment invariant the store maintains: the counter is at
least 1 and the stored ids are, in insertion order, a sublist of
`[1, …, counter − 1]`. -/
def StoreInv (st : Store) : Prop :=
  1 ≤ st.counter ∧
  (st.students.map Prod.fst).Sublist (List.range' 1 (st.counter - 1))

/-- The ids a single request assigns (one for a successful create,
none otherwise). -/
def opAssigned (st : Store) : Op → List ℕ
  | .create req now =>
    match create_student st req now with
    | some (s, _, _) => [s.id]
    | none => []
  | .delete _ _ => []

/-- All ids assigned over a request sequence, in order. -/
def assignedIds : Store → List Op → List ℕ
  | _, [] => []
  | st, op :: ops => opAssigned st op ++ assignedIds (applyOp st op) ops

/-! ### Helper lemmas -/

lemma decimal_roundtrip (n : ℕ) : decimalToNat (natToDecimal n) = n := by
  unfold natToDecimal decimalToNat
  split
  · simp_all [Nat.ofDigits]
  · rw [List.reverse_reverse, Nat.ofDigits_digits]

lemma map_key_roundtrip (l : List (ℕ × Student)) :
    (l.map (fun p => (natToDecimal p.1, p.2))).map (fun p => (decimalToNat p.1, p.2)) = l := by
  induction l with
  | nil => rfl
  | cons h t ih => simp [decimal_roundtrip, ih]

lemma sorted_sortDesc (gb : Boundaries) : (sortDesc gb).Sorted keyGE :=
  List.sorted_insertionSort keyGE gb

lemma mem_sortDesc {gb : Boundaries} {p : ℤ × ℚ} : p ∈ sortDesc gb ↔ p ∈ gb :=
  List.mem_insertionSort keyGE

/-- If the descending boundary scan finds a pair, that pair is in the list,
its boundary is met, and every strictly higher grade's boundary is not. -/
lemma find_desc_spec {ws : ℚ} {l : Boundaries} (hs : l.Sorted keyGE) {a : ℤ × ℚ}
    (h : l.find? (fun p => decide (p.2 ≤ ws)) = some a) :
    a ∈ l ∧ a.2 ≤ ws ∧ ∀ p ∈ l, a.1 < p.1 → ws < p.2 := by
  induction l with
  | nil => simp at h
  | cons b t ih =>
    by_cases hb : b.2 ≤ ws
    · rw [List.find?_cons_of_pos _ (by simpa using hb)] at h
      obtain rfl : b = a := by simpa using h
      refine ⟨List.mem_cons_self _ _, hb, ?_⟩
      rintro p hp hlt
      rcases List.mem_cons.mp hp with rfl | hp
      · exact absurd hlt (lt_irrefl _)
      · exact absurd hlt (not_lt.mpr (List.rel_of_sorted_cons hs p hp))
    · rw [List.find?_cons_of_neg _ (by simpa using hb)] at h
      obtain ⟨hmem, hle, hall⟩ := ih hs.of_cons h
      refine ⟨List.mem_cons_of_mem _ hmem, hle, ?_⟩
      rintro p hp hlt
      rcases List.mem_cons.mp hp with rfl | hp
      · exact not_le.mp hb
      · exact hall p hp hlt

/-- The scan returns the ungraded sentinel exactly when no boundary in the
table is ≤ the weighted score. -/
lemma gradeFromBoundaries_U_iff (ws : ℚ) (gb : Boundaries) :
    gradeFromBoundaries ws gb = Grade.U ↔ ∀ p ∈ gb, ws < p.2 := by
  rcases h : (sortDesc gb).find? (fun p => decide (p.2 ≤ ws)) with _ | p
  · have hU : gradeFromBoundaries ws gb = Grade.U := by
      unfold gradeFromBoundaries; rw [h]
    rw [List.find?_eq_none] at h
    simp only [hU, true_iff]
    intro q hq
    simpa [not_le] using h q (mem_sortDesc.mpr hq)
  · have hg : gradeFromBoundaries ws gb = Grade.g p.1 := by
      unfold gradeFromBoundaries; rw [h]
    have hple : p.2 ≤ ws := by simpa using List.find?_some h
    have hmem : p ∈ gb := mem_sortDesc.mp (List.mem_of_find?_eq_some h)
    rw [hg]
    constructor
    · intro hcontra; exact absurd hcontra (by simp)
    · intro hall; exact absurd hple (not_le.mpr (hall p hmem))

/-- If the scan returns an integer grade, that grade is in the table with
its boundary met, and every strictly higher grade's boundary is above the
weighted score (i.e. it is the first match from highest to lowest). -/
lemma gradeFromBoundaries_g {ws : ℚ} {gb : Boundaries} {a : ℤ}
    (h : gradeFromBoundaries ws gb = Grade.g a) :
    ∃ b : ℚ, (a, b) ∈ gb ∧ b ≤ ws ∧ ∀ p ∈ gb, a < p.1 → ws < p.2 := by
  rcases hf : (sortDesc gb).find? (fun p => decide (p.2 ≤ ws)) with _ | p
  · have hU : gradeFromBoundaries ws gb = Grade.U := by
      unfold gradeFromBoundaries; rw [hf]
    rw [hU] at h; exact absurd h (by simp)
  · have hg : gradeFromBoundaries ws gb = Grade.g p.1 := by
      unfold gradeFromBoundaries; rw [hf]
    rw [hg] at h
    obtain rfl : p.1 = a := by injection h
    obtain ⟨hmem, hle, hall⟩ := find_desc_spec (sorted_sortDesc gb) hf
    exact ⟨p.2, mem_sortDesc.mp hmem, hle,
      fun q hq hlt => hall q (mem_sortDesc.mpr hq) hlt⟩

lemma dget_eq_none_iff {α β : Type} [DecidableEq α] {l : List (α × β)} {k : α} :
    dget l k = none ↔ ∀ p ∈ l, p.1 ≠ k := by
  unfold dget
  simp [Option.map_eq_none', List.find?_eq_none]

lemma dget_cons {α β : Type} [DecidableEq α] {b : α × β} {t : List (α × β)} {k : α} :
    dget (b :: t) k = if b.1 = k then some b.2 else dget t k := by
  unfold dget
  by_cases hb : b.1 = k
  · rw [List.find?_cons_of_pos _ (by simpa using hb), if_pos hb]; rfl
  · rw [List.find?_cons_of_neg _ (by simpa using hb), if_neg hb]

lemma eraseP_eq_filter_of_nodup {l : List (ℕ × Student)} {k : ℕ}
    (h : (l.map Prod.fst).Nodup) :
    l.eraseP (fun p => p.1 == k) = l.filter (fun p => !(p.1 == k)) := by
  induction l with
  | nil => rfl
  | cons b t ih =>
    simp only [List.map_cons, List.nodup_cons] at h
    obtain ⟨hb, ht⟩ := h
    by_cases hk : b.1 = k
    · rw [List.eraseP_cons_of_pos (by simpa using hk),
        List.filter_cons_of_neg (by simpa using hk)]
      symm
      rw [List.filter_eq_self]
      intro p hp
      have : p.1 ≠ b.1 := fun hpk => hb (hpk ▸ List.mem_map_of_mem Prod.fst hp)
      simpa [hk] using fun hcontra => this (hcontra.trans hk.symm)
    · rw [List.eraseP_cons_of_neg (by simpa using hk),
        List.filter_cons_of_pos (by simpa using hk), ih ht]

lemma dget_filter_self {l : List (ℕ × Student)} {k : ℕ} :
    dget (l.filter (fun p => !(p.1 == k))) k = none := by
  rw [dget_eq_none_iff]
  intro p hp
  simpa using (List.mem_filter.mp hp).2

lemma dget_filter_other {l : List (ℕ × Student)} {k k' : ℕ} (h : k' ≠ k) :
    dget (l.filter (fun p => !(p.1 == k))) k' = dget l k' := by
  induction l with
  | nil => rfl
  | cons b t ih =>
    by_cases hbk : b.1 = k
    · rw [List.filter_cons_of_neg (by simpa using hbk), ih, dget_cons,
        if_neg (fun hc : b.1 = k' => h (hc ▸ hbk ▸ rfl))]
    · rw [List.filter_cons_of_pos (by simpa using hbk), dget_cons, dget_cons]
      by_cases hb' : b.1 = k'
      · rw [if_pos hb', if_pos hb']
      · rw [if_neg hb', if_neg hb', ih]

lemma dictSet_append {l : List (ℕ × Student)} {k : ℕ} {v : Student}
    (h : ∀ p ∈ l, p.1 ≠ k) : dictSet l k v = l ++ [(k, v)] := by
  unfold dictSet
  rw [if_neg]
  simp only [List.any_eq_true, beq_iff_eq, not_exists, not_and]
  exact h

lemma StoreInv.id_lt {st : Store} (h : StoreInv st) :
    ∀ p ∈ st.students, p.1 < st.counter := by
  intro p hp
  have hmem : p.1 ∈ List.range' 1 (st.counter - 1) :=
    h.2.subset (List.mem_map_of_mem Prod.fst hp)
  rw [List.mem_range'] at hmem
  obtain ⟨i, hi, heq⟩ := hmem
  omega

lemma create_student_eq (st : Store) (req : CreateRequest) (now : String)
    (ws : ℚ) (hws : createWeightedScore req.mock_scores req.coursework_score
      req.teacher_assessment = some ws) :
    create_student st req now =
      some (builtStudent st req now ws,
        { students := dictSet st.students st.counter (builtStudent st req now ws)
          counter := st.counter + 1 },
        save_data
          { students := dictSet st.students st.counter (builtStudent st req now ws)
            counter := st.counter + 1 } now) := by
  unfold create_student
  rw [hws]
  exact rfl

lemma create_student_success (st : Store) (req : CreateRequest) (now : String)
    (hms : req.mock_scores ≠ []) (hfree : ∀ p ∈ st.students, p.1 ≠ st.counter) :
    ∃ s snap, create_student st req now =
      some (s, { students := st.students ++ [(st.counter, s)],
                 counter := st.counter + 1 }, snap) ∧
      s.id = st.counter := by
  have hni : ¬ req.mock_scores.isEmpty = true := by
    simpa [List.isEmpty_iff] using hms
  obtain ⟨ws, hws⟩ : ∃ ws, createWeightedScore req.mock_scores
      req.coursework_score req.teacher_assessment = some ws := by
    cases req.coursework_score <;> simp [createWeightedScore, hni]
  have heq := create_student_eq st req now ws hws
  rw [dictSet_append hfree] at heq
  exact ⟨builtStudent st req now ws, _, heq, rfl⟩

lemma range_concat_counter {c : ℕ} (hc : 1 ≤ c) :
    List.range' 1 (c + 1 - 1) = List.range' 1 (c - 1) ++ [c] := by
  have h1 : c + 1 - 1 = (c - 1) + 1 := by omega
  rw [h1, List.range'_concat]
  have : 1 + 1 * (c - 1) = c := by omega
  rw [this]

lemma storeInv_applyOp {st : Store} (h : StoreInv st) (op : Op) :
    StoreInv (applyOp st op) := by
  cases op with
  | create req now =>
    by_cases hms : req.mock_scores = []
    · have hnone : create_student st req now = none := by
        simp [create_student, createWeightedScore, hms]
      simpa [applyOp, hnone] using h
    · obtain ⟨s, snap, hcr, hid⟩ := create_student_success st req now hms
        (fun p hp => ne_of_lt (h.id_lt p hp))
      have hap : applyOp st (.create req now) =
          { students := st.students ++ [(st.counter, s)],
            counter := st.counter + 1 } := by
        simp [applyOp, hcr]
      rw [hap]
      refine ⟨le_trans h.1 (Nat.le_succ _), ?_⟩
      simp only [List.map_append, List.map_cons, List.map_nil]
      rw [range_concat_counter h.1]
      exact h.2.append (List.Sublist.refl _)
  | delete id now =>
    rcases hd : dget st.students id with _ | s
    · have hap : applyOp st (.delete id now) = st := by
        simp [applyOp, delete_student, hd]
      rw [hap]; exact h
    · have hap : applyOp st (.delete id now) =
          { students := st.students.eraseP (fun p => p.1 == id),
            counter := st.counter } := by
        simp [applyOp, delete_student, hd]
      rw [hap]
      exact ⟨h.1, (((List.eraseP_sublist _).map Prod.fst).trans h.2)⟩

lemma storeInv_runOps (ops : List Op) (st : Store) (h : StoreInv st) :
    StoreInv (runOps st ops) := by
  induction ops generalizing st with
  | nil => exact h
  | cons op ops ih => exact ih (applyOp st op) (storeInv_applyOp h op)

lemma assignedIds_spec (ops : List Op) (st : Store) (h : StoreInv st) :
    st.counter ≤ (runOps st ops).counter ∧
    assignedIds st ops =
      List.range' st.counter ((runOps st ops).counter - st.counter) ∧
    ((runOps st ops).students.map Prod.fst).Sublist
      (st.students.map Prod.fst ++ assignedIds st ops) := by
  induction ops generalizing st with
  | nil =>
    refine ⟨le_refl _, by simp [assignedIds, runOps], by simp [assignedIds, runOps]⟩
  | cons op ops ih =>
    obtain ⟨hc, ha, hs⟩ := ih (applyOp st op) (storeInv_applyOp h op)
    have hrun : runOps st (op :: ops) = runOps (applyOp st op) ops := rfl
    have hassign : assignedIds st (op :: ops) =
        opAssigned st op ++ assignedIds (applyOp st op) ops := rfl
    cases op with
    | create req now =>
      by_cases hms : req.mock_scores = []
      · have hnone : create_student st req now = none := by
          simp [create_student, createWeightedScore, hms]
        have hap : applyOp st (.create req now) = st := by
          simp [applyOp, hnone]
        have hoa : opAssigned st (.create req now) = [] := by
          simp [opAssigned, hnone]
        rw [hap] at hc ha hs
        rw [hrun, hap, hassign, hoa, hap]
        exact ⟨hc, by simpa using ha, by simpa using hs⟩
      · obtain ⟨s, snap, hcr, hid⟩ := create_student_success st req now hms
          (fun p hp => ne_of_lt (h.id_lt p hp))
        have hcount : (applyOp st (.create req now)).counter = st.counter + 1 := by
          simp [applyOp, hcr]
        have hstud : (applyOp st (.create req now)).students =
            st.students ++ [(st.counter, s)] := by
          simp [applyOp, hcr]
        have hoa : opAssigned st (.create req now) = [st.counter] := by
          simp [opAssigned, hcr, hid]
        rw [hrun, hassign, hoa]
        refine ⟨?_, ?_, ?_⟩
        · exact le_trans (Nat.le_succ _) (le_trans (le_of_eq hcount.symm) hc)
        · rw [ha, hcount]
          have hc' : st.counter + 1 ≤
              (runOps (applyOp st (.create req now)) ops).counter := by
            rw [← hcount]; exact hc
          have hn : (runOps (applyOp st (.create req now)) ops).counter - st.counter =
              ((runOps (applyOp st (.create req now)) ops).counter -
                (st.counter + 1)) + 1 := by
            omega
          rw [hn, List.range'_succ]
          rfl
        · rw [hstud] at hs
          simp only [List.map_append, List.map_cons, List.map_nil,
            List.append_assoc] at hs ⊢
          exact hs
    | delete id now =>
      have hoa : opAssigned st (.delete id now) = [] := rfl
      have hct : (applyOp st (.delete id now)).counter = st.counter ∧
          ((applyOp st (.delete id now)).students.map Prod.fst).Sublist
            (st.students.map Prod.fst) := by
        rcases hd : dget st.students id with _ | s
        · have hap : applyOp st (.delete id now) = st := by
            simp [applyOp, delete_student, hd]
          rw [hap]
          exact ⟨rfl, List.Sublist.refl _⟩
        · have hap : applyOp st (.delete id now) =
              { students := st.students.eraseP (fun p => p.1 == id),
                counter := st.counter } := by
            simp [applyOp, delete_student, hd]
          rw [hap]
          exact ⟨rfl, (List.eraseP_sublist _).map Prod.fst⟩
      rw [hrun, hassign, hoa]
      rw [hct.1] at hc ha
      refine ⟨hc, by simpa using ha, ?_⟩
      simp only [List.nil_append]
      exact hs.trans (hct.2.append (List.Sublist.refl _))

/-! ### Theorems -/

/-- C8: loading the snapshot written by `save_data` reproduces the store:
the decimal-string keys convert back to the original integer ids and the
next-id counter is preserved. -/
theorem load_save_roundtrip (st : Store) (now : String) :
    load_data (some (save_data st now)) = st := by
  cases st with
  | mk students counter =>
    simp only [load_data, save_data, map_key_roundtrip]

/-- C9: the worked example.  mockScores = [80, 90], coursework = 70,
teacherAssessment = 85 with the default boundaries give a weighted score of
80.5 and predicted grade 8; against target grade 9 the progress report is
gap = 9.5, on_track = false, percentage_complete = 89.44. -/
theorem worked_example :
    weightedScore [80, 90] (some 70) 85 = 80.5 ∧
    calculate_predicted_grade [80, 90] (some 70) 85 DEFAULT_GRADE_BOUNDARIES = Grade.g 8 ∧
    calculate_progress 80.5 9 DEFAULT_GRADE_BOUNDARIES =
      { gap := 9.5, on_track := false, percentage_complete := 89.44 } := by
  refine ⟨?_, ?_, ?_⟩
  · norm_num [weightedScore, mockAverage]
  · norm_num [calculate_predicted_grade, gradeFromBoundaries, weightedScore, mockAverage,
      sortDesc, DEFAULT_GRADE_BOUNDARIES, keyGE, List.find?]
  · norm_num [calculate_progress, round2, dget, DEFAULT_GRADE_BOUNDARIES, List.find?, round_eq]

/-- C1: `calculate_predicted_grade` tolerates an empty mock-score list
(its guarded mock average is 0, and the example input still yields a
grade), but the create operation's inline weighted-score recomputation
divides by `len(mock_scores)` without a guard, so an empty list raises
`ZeroDivisionError` there (modelled as `none`) and the create fails. -/
theorem empty_mock_scores_behaviour :
    mockAverage [] = 0 ∧
    calculate_predicted_grade [] (some 70) 85 DEFAULT_GRADE_BOUNDARIES = Grade.g 3 ∧
    createWeightedScore [] (some 70) 85 = none ∧
    create_student freshStore
      { name := "s", subject := "m", target_grade := 9, mock_scores := [],
        teacher_assessment := 85, coursework_score := some 70,
        grade_boundaries := none } "t" = none := by
  refine ⟨rfl, ?_, rfl, rfl⟩
  norm_num [calculate_predicted_grade, gradeFromBoundaries, weightedScore, mockAverage,
    sortDesc, DEFAULT_GRADE_BOUNDARIES, keyGE, List.find?]

/-- C3 counterexample: at currentScore = 89.996, targetGrade = 9 (threshold
90) the returned gap rounds to 0, so the claimed rule「onTrack = (rounded
gap ≤ 0)」would report true, yet the code computes `on_track` from the
un-rounded gap 0.004 and reports false. -/
theorem on_track_ignores_rounding :
    (calculate_progress (89996 / 1000) 9 DEFAULT_GRADE_BOUNDARIES).gap = 0 ∧
    (calculate_progress (89996 / 1000) 9 DEFAULT_GRADE_BOUNDARIES).gap ≤ 0 ∧
    (calculate_progress (89996 / 1000) 9 DEFAULT_GRADE_BOUNDARIES).on_track = false := by
  refine ⟨?_, ?_, ?_⟩ <;>
    norm_num [calculate_progress, round2, dget, DEFAULT_GRADE_BOUNDARIES, List.find?, round_eq]

/-- C3 amended: `calculate_progress` returns gap = round(threshold −
current, 2), on_track = (threshold − current ≤ 0) computed from the
un-rounded difference, and percentage_complete = 0 when the threshold is
≤ 0, else min(100, round(current / threshold × 100, 2)). -/
theorem calculate_progress_formulas (current : ℚ) (target : ℤ) (gb : Boundaries) :
    (calculate_progress current target gb).gap =
      round2 ((dget gb target).getD 0 - current) ∧
    ((calculate_progress current target gb).on_track = true ↔
      (dget gb target).getD 0 - current ≤ 0) ∧
    (calculate_progress current target gb).percentage_complete =
      (if (dget gb target).getD 0 ≤ 0 then 0
       else min 100 (round2 (current / (dget gb target).getD 0 * 100))) := by
  refine ⟨rfl, by simp [calculate_progress], ?_⟩
  simp only [calculate_progress]
  rcases le_or_lt ((dget gb target).getD 0) 0 with h | h
  · rw [if_neg (not_lt.mpr h), if_pos h]
  · rw [if_pos h, if_neg (not_le.mpr h)]

/-- C3 amended, witness at the worked-example input. -/
theorem calculate_progress_formulas_witness :
    (calculate_progress 80.5 9 DEFAULT_GRADE_BOUNDARIES).on_track = true ↔
      (dget DEFAULT_GRADE_BOUNDARIES 9).getD 0 - 80.5 ≤ 0 :=
  (calculate_progress_formulas 80.5 9 DEFAULT_GRADE_BOUNDARIES).2.1

/-- C4 counterexample: for a targetGrade absent from the table the
threshold degrades to 0, but with a negative currentScore the un-rounded
gap 0 − current is positive, so on_track is false — the claim's「onTrack =
true for every currentScore」fails. -/
theorem absent_target_not_always_on_track :
    dget DEFAULT_GRADE_BOUNDARIES 99 = none ∧
    (calculate_progress (-1) 99 DEFAULT_GRADE_BOUNDARIES).on_track = false := by
  refine ⟨rfl, ?_⟩
  norm_num [calculate_progress, dget, DEFAULT_GRADE_BOUNDARIES, List.find?]

/-- C4 amended: for a targetGrade absent from the boundary table,
`calculate_progress` raises no error and degrades to threshold 0:
percentage_complete is 0 for every currentScore, and on_track is true for
every non-negative currentScore. -/
theorem absent_target_degrades (current : ℚ) (target : ℤ) (gb : Boundaries)
    (habsent : dget gb target = none) :
    (calculate_progress current target gb).percentage_complete = 0 ∧
    (calculate_progress current target gb).gap = round2 (0 - current) ∧
    (0 ≤ current → (calculate_progress current target gb).on_track = true) := by
  refine ⟨?_, ?_, fun hc => ?_⟩ <;> simp [calculate_progress, habsent]
  linarith

/-- C2: the boundary scan returns the first grade, from highest to lowest,
whose boundary is ≤ the weighted score (equality meets the grade); when no
boundary is ≤ the score — in particular for the empty table — it returns
the ungraded sentinel, raising no error (the function is total). -/
theorem boundary_scan_first_match (ws : ℚ) (gb : Boundaries) :
    gradeFromBoundaries ws [] = Grade.U ∧
    (gradeFromBoundaries ws gb = Grade.U ↔ ∀ p ∈ gb, ws < p.2) ∧
    ∀ a : ℤ, gradeFromBoundaries ws gb = Grade.g a →
      ∃ b : ℚ, (a, b) ∈ gb ∧ b ≤ ws ∧ ∀ p ∈ gb, a < p.1 → ws < p.2 :=
  ⟨rfl, gradeFromBoundaries_U_iff ws gb, fun _ h => gradeFromBoundaries_g h⟩

/-- C2 witness: weighted score 80.5 against the default table earns grade
8: boundary 80 is met and every higher grade's boundary exceeds 80.5. -/
theorem boundary_scan_first_match_witness :
    ∃ b : ℚ, ((8 : ℤ), b) ∈ DEFAULT_GRADE_BOUNDARIES ∧ b ≤ 80.5 ∧
      ∀ p ∈ DEFAULT_GRADE_BOUNDARIES, (8 : ℤ) < p.1 → (80.5 : ℚ) < p.2 :=
  (boundary_scan_first_match 80.5 DEFAULT_GRADE_BOUNDARIES).2.2 8 (by
    norm_num [gradeFromBoundaries, sortDesc, DEFAULT_GRADE_BOUNDARIES, keyGE, List.find?])

/-- C5: for weighted scores s1 ≤ s2 and a boundary table whose thresholds
are monotonically non-decreasing in the grade, the predicted grade for s2
is ≥ the predicted grade for s1, with the ungraded sentinel below every
integer grade. -/
theorem predicted_grade_monotone (s1 s2 : ℚ) (gb : Boundaries) (h12 : s1 ≤ s2)
    (_hmono : ∀ p ∈ gb, ∀ q ∈ gb, p.1 ≤ q.1 → p.2 ≤ q.2) :
    Grade.le (gradeFromBoundaries s1 gb) (gradeFromBoundaries s2 gb) := by
  cases h1 : gradeFromBoundaries s1 gb with
  | U => trivial
  | g a1 =>
    obtain ⟨b1, hmem1, hle1, _⟩ := gradeFromBoundaries_g h1
    cases h2 : gradeFromBoundaries s2 gb with
    | U =>
      rw [gradeFromBoundaries_U_iff] at h2
      exact absurd (h2 (a1, b1) hmem1) (not_lt.mpr (le_trans hle1 h12))
    | g a2 =>
      obtain ⟨b2, hmem2, hle2, hall2⟩ := gradeFromBoundaries_g h2
      have hnot : ¬ a2 < a1 := fun hlt =>
        absurd (hall2 (a1, b1) hmem1 hlt) (not_lt.mpr (le_trans hle1 h12))
      exact not_lt.mp hnot

/-- C5 witness: scores 61 ≤ 90 with the (monotone) default table. -/
theorem predicted_grade_monotone_witness :
    Grade.le (gradeFromBoundaries 61 DEFAULT_GRADE_BOUNDARIES)
      (gradeFromBoundaries 90 DEFAULT_GRADE_BOUNDARIES) :=
  predicted_grade_monotone 61 90 DEFAULT_GRADE_BOUNDARIES (by norm_num) (by decide)

/-- C10: for a non-empty mock-score list the weighted score the create
operation recomputes inline equals the one computed inside
`calculate_predicted_grade`, and the stored record's `weighted_score` is
exactly the value the stored `predicted_grade` was derived from. -/
theorem inline_weighted_score_agrees (ms : List ℚ) (cw : Option ℚ) (ta : ℚ)
    (h : ms ≠ []) :
    createWeightedScore ms cw ta = some (weightedScore ms cw ta) ∧
    ∀ (st : Store) (req : CreateRequest) (now : String),
      req.mock_scores = ms → req.coursework_score = cw →
      req.teacher_assessment = ta →
      ∀ s rest, create_student st req now = some (s, rest) →
        s.weighted_score = weightedScore ms cw ta ∧
        s.predicted_grade = gradeFromBoundaries s.weighted_score s.grade_boundaries := by
  have hni : ¬ ms.isEmpty = true := by simpa [List.isEmpty_iff] using h
  have h1 : createWeightedScore ms cw ta = some (weightedScore ms cw ta) := by
    cases cw <;> simp [createWeightedScore, weightedScore, mockAverage, hni]
  refine ⟨h1, ?_⟩
  rintro st req now rfl rfl rfl s rest hcr
  simp only [create_student, h1] at hcr
  obtain ⟨hs, -⟩ := Prod.mk.injEq .. ▸ Option.some.inj hcr
  subst hs
  exact ⟨rfl, rfl⟩

/-- C10 witness at the worked-example input. -/
theorem inline_weighted_score_agrees_witness :
    createWeightedScore [80, 90] (some 70) 85 =
      some (weightedScore [80, 90] (some 70) 85) :=
  (inline_weighted_score_agrees [80, 90] (some 70) 85 (by simp)).1

/-- C4 amended, witness: absent target grade 99, currentScore 0. -/
theorem absent_target_degrades_witness :
    (calculate_progress 0 99 DEFAULT_GRADE_BOUNDARIES).percentage_complete = 0 ∧
    (calculate_progress 0 99 DEFAULT_GRADE_BOUNDARIES).gap = round2 (0 - 0) ∧
    (0 ≤ (0 : ℚ) → (calculate_progress 0 99 DEFAULT_GRADE_BOUNDARIES).on_track = true) :=
  absent_target_degrades 0 99 DEFAULT_GRADE_BOUNDARIES rfl

/-- C6: deleting an unknown id reports not-found and leaves the mapping,
the counter and the snapshot untouched; deleting a present id returns the
removed record, removes exactly that entry (every other id still maps to
its old record, order preserved), makes the id's absence observable in
every subsequent get and list, and writes the updated snapshot. -/
theorem delete_student_spec (st : Store) (id : ℕ) (now : String)
    (hnodup : (st.students.map Prod.fst).Nodup) :
    (get_student st id = none →
      delete_student st id now = (DeleteOutcome.notFound, st, none)) ∧
    (∀ r, get_student st id = some r →
      (delete_student st id now).1 = DeleteOutcome.deleted r ∧
      (delete_student st id now).2.1.counter = st.counter ∧
      (delete_student st id now).2.1.students =
        st.students.filter (fun p => !(p.1 == id)) ∧
      get_student (delete_student st id now).2.1 id = none ∧
      (∀ k, k ≠ id →
        get_student (delete_student st id now).2.1 k = get_student st k) ∧
      (∀ p ∈ (delete_student st id now).2.1.students, p.1 ≠ id) ∧
      (delete_student st id now).2.2 =
        some (save_data (delete_student st id now).2.1 now)) := by
  rcases hd : dget st.students id with _ | s
  · refine ⟨fun _ => ?_, fun r hr => ?_⟩
    · unfold delete_student
      rw [hd]
    · unfold get_student at hr
      rw [hd] at hr
      exact absurd hr (by simp)
  · have hD : delete_student st id now =
        (DeleteOutcome.deleted s,
         { students := st.students.eraseP (fun p => p.1 == id)
           counter := st.counter },
         some (save_data { students := st.students.eraseP (fun p => p.1 == id)
                           counter := st.counter } now)) := by
      unfold delete_student
      rw [hd]
    refine ⟨fun hnone => ?_, fun r hr => ?_⟩
    · unfold get_student at hnone
      rw [hd] at hnone
      exact absurd hnone (by simp)
    · unfold get_student at hr
      rw [hd] at hr
      obtain rfl : s = r := by simpa using hr
      rw [hD, eraseP_eq_filter_of_nodup hnodup]
      exact ⟨rfl, rfl, rfl, dget_filter_self, fun k hk => dget_filter_other hk,
        fun p hp => by simpa using (List.mem_filter.mp hp).2, rfl⟩

/-- C6 witness: on the concrete two-record store, deleting absent id 7 is
a not-found no-op, and deleting present id 1 removes exactly that entry. -/
theorem delete_student_spec_witness :
    (get_student sampleStore 7 = none →
      delete_student sampleStore 7 "t" = (DeleteOutcome.notFound, sampleStore, none)) ∧
    (∀ r, get_student sampleStore 1 = some r →
      (delete_student sampleStore 1 "t").1 = DeleteOutcome.deleted r ∧
      (delete_student sampleStore 1 "t").2.1.counter = sampleStore.counter ∧
      (delete_student sampleStore 1 "t").2.1.students =
        sampleStore.students.filter (fun p => !(p.1 == 1)) ∧
      get_student (delete_student sampleStore 1 "t").2.1 1 = none ∧
      (∀ k, k ≠ 1 →
        get_student (delete_student sampleStore 1 "t").2.1 k =
          get_student sampleStore k) ∧
      (∀ p ∈ (delete_student sampleStore 1 "t").2.1.students, p.1 ≠ 1) ∧
      (delete_student sampleStore 1 "t").2.2 =
        some (save_data (delete_student sampleStore 1 "t").2.1 "t")) :=
  ⟨(delete_student_spec sampleStore 7 "t" (by
      simp [sampleStore])).1,
   (delete_student_spec sampleStore 1 "t" (by
      simp [sampleStore])).2⟩

/-- C7: over every request sequence on a fresh store, the assigned ids are
exactly 1, 2, 3, … (start at 1, strictly increasing, unique, never reused
even after deletions), the stored entries are, in insertion order, a
sublist of that assignment sequence (so listing preserves insertion
order = ascending id order), every stored id is below the counter, and a
successful create assigns id = the current counter, appends the record,
and increments the counter. -/
theorem ids_assigned_monotonically (ops : List Op) :
    assignedIds freshStore ops =
      List.range' 1 (assignedIds freshStore ops).length ∧
    ((runOps freshStore ops).students.map Prod.fst).Sublist
      (assignedIds freshStore ops) ∧
    (∀ p ∈ (runOps freshStore ops).students,
      p.1 < (runOps freshStore ops).counter) ∧
    ∀ req now, req.mock_scores ≠ [] →
      ∃ s snap, create_student (runOps freshStore ops) req now =
        some (s, { students := (runOps freshStore ops).students ++
                     [((runOps freshStore ops).counter, s)],
                   counter := (runOps freshStore ops).counter + 1 }, snap) ∧
        s.id = (runOps freshStore ops).counter := by
  have hfresh : StoreInv freshStore := ⟨le_refl 1, by simp [freshStore]⟩
  obtain ⟨hc, ha, hs⟩ := assignedIds_spec ops freshStore hfresh
  have hinv := storeInv_runOps ops freshStore hfresh
  refine ⟨?_, ?_, hinv.id_lt, fun req now hms =>
    create_student_success _ req now hms
      (fun p hp => ne_of_lt (hinv.id_lt p hp))⟩
  · rw [ha, List.length_range']
    rfl
  · simpa [freshStore] using hs

/-- C7 witness: the first create on a fresh store assigns id 1, appends
the record, and bumps the counter to 2. -/
theorem ids_assigned_monotonically_witness :
    ∃ s snap, create_student (runOps freshStore []) sampleRequest "t" =
      some (s, { students := (runOps freshStore []).students ++
                   [((runOps freshStore []).counter, s)],
                 counter := (runOps freshStore []).counter + 1 }, snap) ∧
      s.id = (runOps freshStore []).counter :=
  (ids_assigned_monotonically []).2.2.2 sampleRequest "t" (by simp [sampleRequest])

end GCSE
